import Mathlib

/-!
Shallow embedding of the Shiptivity client API server (Express + SQLite).

The server keeps a table of clients, each with an id, name, description,
status (swimlane: "backlog" | "in-progress" | "complete") and priority
(rank within its lane, 1 = top).  The PUT /api/v1/clients/:id handler
reranks a client: it loads all clients, resolves the requested status and
priority, shifts the priorities of the other clients in the affected
lane(s) by mutating the loaded array in place, replaces the target client,
and writes every row back one UPDATE at a time.

JavaScript semantics that matter here and are modelled explicitly:
  * a chained comparison such as  a <= b < c  parses as  (a <= b) < c,
    coercing the boolean to 0 or 1 before the second comparison;
  * originalClient is an alias of the object stored in the clients array,
    so when the loop mutates the target row, later iterations read the
    mutated priority;
  * status and priority from the request body are tested for truthiness
    ("" and 0 count as absent);
  * res.send does not end the handler: a missing return lets execution
    continue after an error response has been sent.
-/

/-- A row of the clients table (id, name, description, status, priority). -/
structure Client where
  id : Int
  name : String
  description : String
  status : String
  priority : Int
deriving Repr, DecidableEq

/-- JavaScript values that can reach validatePriority through the JSON
request body or the handler: undefined, null, NaN, a (possibly
non-integer) number, or a string. -/
inductive JSVal where
  | undef
  | null
  | nan
  | num (q : ℚ)
  | str (s : String)
deriving Repr, DecidableEq

/-- Number.isNaN: true exactly on the NaN value (no coercion). -/
def jsIsNaN : JSVal → Bool
  | .nan => true
  | _ => false

/-- JavaScript truthiness: undefined, null, NaN, 0 and "" are falsy. -/
def jsTruthy : JSVal → Bool
  | .undef => false
  | .null => false
  | .nan => false
  | .num q => !(q == 0)
  | .str s => !(s == "")

/-- Result object of the validate helpers: a valid flag and, when invalid,
the message of the 400 body. -/
structure Validation where
  valid : Bool
  message : Option String
deriving Repr, DecidableEq

/-- validatePriority from the source: it flags invalid only when
Number.isNaN(priority) and priority is truthy both hold. -/
def validatePriority (priority : JSVal) : Validation :=
  if jsIsNaN priority && jsTruthy priority then
    { valid := false, message := some "Invalid priority provided." }
  else
    { valid := true, message := none }

/-- validateId from the source, as a predicate: the parsed id is NaN
(modelled as none), or no client row has that id.  The db parameter is
the clients table the SQL lookup runs against. -/
def validateIdValid (db : List Client) (rawId : Option Int) : Bool :=
  match rawId with
  | none => false
  | some i => (db.find? (fun c => c.id == i)).isSome

/-- A response sent by a handler: 200 with the full client list, 200 with
a single lookup result (GET by id), 400 with a message, or the TypeError
thrown when the handler dereferences an originalClient that is undefined
(modelled as a crash outcome). -/
inductive Resp where
  | ok (clients : List Client)
  | getOk (result : Option Client)
  | badRequest (message : String)
  | crash
deriving Repr, DecidableEq

/-- The client list carried by the first 200-with-list response, if any. -/
def okClients : List Resp → Option (List Client)
  | [] => none
  | .ok cs :: _ => some cs
  | _ :: rest => okClients rest

/-- Status strings the handlers accept. -/
def validStatus (s : String) : Bool :=
  s == "backlog" || s == "in-progress" || s == "complete"

/-- The same-lane shifting loop of the PUT handler.  For each client of
the lane it evaluates the JavaScript chained comparisons
(priority <= client.priority < originalClient.priority) and
(priority >= client.priority > originalClient.priority), where the inner
boolean is coerced to 0 or 1, and mutates the priority in place.  The
accumulator op tracks originalClient.priority, which changes when the
loop mutates the target row itself (originalClient aliases it). -/
def sameLaneLoop (lane : String) (priority tid : Int) : Int → List Client → List Client
  | _, [] => []
  | op, c :: rest =>
    if c.status == lane then
      if (if priority ≤ c.priority then (1 : Int) else 0) < op then
        let c2 := { c with priority := c.priority + 1 }
        c2 :: sameLaneLoop lane priority tid (if c.id == tid then c2.priority else op) rest
      else if (if priority ≥ c.priority then (1 : Int) else 0) > op then
        let c2 := { c with priority := c.priority - 1 }
        c2 :: sameLaneLoop lane priority tid (if c.id == tid then c2.priority else op) rest
      else
        c :: sameLaneLoop lane priority tid op rest
    else
      c :: sameLaneLoop lane priority tid op rest

/-- The cross-lane shifting loop of the PUT handler: rows of the origin
lane with priority >= originalClient.priority are decremented (the target
row included, which also decrements the aliased originalClient.priority,
tracked by op), rows of the destination lane with priority >= the
requested priority are incremented. -/
def crossLaneLoop (origLane newLane : String) (priority tid : Int) : Int → List Client → List Client
  | _, [] => []
  | op, c :: rest =>
    if c.status == origLane then
      if c.priority ≥ op then
        let c2 := { c with priority := c.priority - 1 }
        c2 :: crossLaneLoop origLane newLane priority tid (if c.id == tid then c2.priority else op) rest
      else
        c :: crossLaneLoop origLane newLane priority tid op rest
    else if c.status == newLane then
      if c.priority ≥ priority then
        { c with priority := c.priority + 1 } :: crossLaneLoop origLane newLane priority tid op rest
      else
        c :: crossLaneLoop origLane newLane priority tid op rest
    else
      c :: crossLaneLoop origLane newLane priority tid op rest

/-- Resolution of the requested status (lines 126-135 of the handler):
a truthy body status must be one of the three lanes, otherwise 400; an
absent (or empty) body status falls back to originalClient.status, which
throws if originalClient is undefined. -/
def resolveStatus (reqStatus : Option String) (oc : Option Client) : Except Resp String :=
  match reqStatus with
  | some s =>
    if s == "" then
      match oc with
      | none => .error .crash
      | some c => .ok c.status
    else if validStatus s then .ok s
    else .error (.badRequest "Invalid status provided.")
  | none =>
    match oc with
    | none => .error .crash
    | some c => .ok c.status

/-- Resolution of the requested priority (lines 140-143): a falsy body
priority (absent or 0) means: if the resolved status equals the original
status the handler returns 200 with the unchanged list, otherwise the
priority defaults to maxPriority (the destination lane size plus one).
Accessing originalClient throws if it is undefined. -/
def resolvePriority (reqPriority : Option Int) (oc : Option Client) (status : String)
    (clients : List Client) (maxPriority : Int) : Except Resp Int :=
  match reqPriority with
  | some p =>
    if p == 0 then
      match oc with
      | none => .error .crash
      | some c => if c.status == status then .error (.ok clients) else .ok maxPriority
    else .ok p
  | none =>
    match oc with
    | none => .error .crash
    | some c => if c.status == status then .error (.ok clients) else .ok maxPriority

/-- Tail of the PUT handler (lines 176-187): clamp the priority to
maxPriority, build updatedClient by spreading the (possibly mutated)
originalClient and overriding status and priority, and substitute it for
the target id in the shifted list. -/
def applyMove (tid : Int) (status : String) (priority maxPriority : Int)
    (oc : Client) (shifted : List Client) : List Client :=
  let priority2 := if priority > maxPriority then maxPriority else priority
  let updated : Client :=
    { id := oc.id, name := oc.name, description := oc.description,
      status := status, priority := priority2 }
  shifted.map (fun c => if c.id == tid then updated else c)

/-- Body of the PUT handler after id validation: exactly one response is
produced (400 for a bad status, 200 with the unchanged list for a no-op,
a crash when originalClient is undefined, or 200 with the reranked
list). -/
def putResp (clients : List Client) (oc : Option Client) (tid : Int)
    (reqStatus : Option String) (reqPriority : Option Int) : Resp :=
  match resolveStatus reqStatus oc with
  | .error r => r
  | .ok status =>
    let maxPriority : Int := ((clients.filter (fun c => c.status == status)).length : Int) + 1
    match resolvePriority reqPriority oc status clients maxPriority with
    | .error r => r
    | .ok priority =>
      if (validatePriority (.num (priority : ℚ))).valid = false then
        .badRequest "Invalid priority provided."
      else
        match oc with
        | none => .crash
        | some c =>
          if c.status == status then
            if c.priority == priority then .ok clients
            else .ok (applyMove tid status priority maxPriority c
              (sameLaneLoop status priority tid c.priority clients))
          else
            .ok (applyMove tid status priority maxPriority c
              (crossLaneLoop c.status status priority tid c.priority clients))

/-- PUT /api/v1/clients/:id.  rawId is the parsed path id (none for NaN).
When validateId fails the 400 response is sent but, the return being
missing, execution continues: the find over the loaded list yields no
original client and the body runs anyway.  The result is the ordered
list of responses the handler sends. -/
def putHandler (db : List Client) (rawId : Option Int)
    (reqStatus : Option String) (reqPriority : Option Int) : List Resp :=
  let pre : List Resp :=
    if validateIdValid db rawId then [] else [.badRequest "Invalid id provided."]
  let oc : Option Client :=
    match rawId with
    | none => none
    | some i => db.find? (fun c => c.id == i)
  pre ++ [putResp db oc (rawId.getD 0) reqStatus reqPriority]

/-- GET /api/v1/clients/:id.  On an invalid id the 400 response is sent
but, the return being missing, the handler still sends the 200 response
with the (empty) lookup result. -/
def getClientHandler (db : List Client) (rawId : Option Int) : List Resp :=
  let pre : List Resp :=
    if validateIdValid db rawId then [] else [.badRequest "Invalid id provided."]
  let result : Option Client :=
    match rawId with
    | none => none
    | some i => db.find? (fun c => c.id == i)
  pre ++ [.getOk result]

/-- Ranks held by the clients of one lane, in list order. -/
def laneRanks (clients : List Client) (lane : String) : List Int :=
  (clients.filter (fun c => c.status == lane)).map (fun c => c.priority)

/-- Density of one lane: each of 1..n occurs exactly once among the n
ranks of the lane, i.e. the multiset of ranks is exactly 1..n. -/
def densityLaneB (clients : List Client) (lane : String) : Bool :=
  (List.range (laneRanks clients lane).length).all
    (fun k => (laneRanks clients lane).count ((k : Int) + 1) == 1)

/-- The three swimlanes. -/
def lanes : List String := ["backlog", "in-progress", "complete"]

/-- Density invariant over all three lanes. -/
def densityAllB (clients : List Client) : Bool :=
  lanes.all (fun l => densityLaneB clients l)

/-- One UPDATE clients SET status = ?, priority = ? WHERE id = ? row
write, applied to the persisted table. -/
def applyWrite (db : List Client) (w : Client) : List Client :=
  db.map (fun c => if c.id == w.id then { c with status := w.status, priority := w.priority } else c)

/-- The destination lane a request resolves to: the truthy body status,
otherwise the status of the original client. -/
def destLaneOf (reqStatus : Option String) (oc : Client) : String :=
  match reqStatus with
  | some s => if s == "" then oc.status else s
  | none => oc.status

/-- A backlog lane holding five clients ranked 1..5 (the other lanes
empty), satisfying the density invariant. -/
def exB5 : List Client :=
  [⟨1, "a", "", "backlog", 1⟩, ⟨2, "b", "", "backlog", 2⟩, ⟨3, "c", "", "backlog", 3⟩,
   ⟨4, "d", "", "backlog", 4⟩, ⟨5, "e", "", "backlog", 5⟩]

/-- What the handler actually produces when the client at rank 4 of exB5
is moved to rank 1 of its own lane: the rank-5 client is pushed to rank
6, because the chained comparison makes the increment branch fire for
every client of the lane. -/
def exB5after : List Client :=
  [⟨1, "a", "", "backlog", 2⟩, ⟨2, "b", "", "backlog", 3⟩, ⟨3, "c", "", "backlog", 4⟩,
   ⟨4, "d", "", "backlog", 1⟩, ⟨5, "e", "", "backlog", 6⟩]

/-- A density-satisfying state in which the backlog client ranked 1
appears after the backlog client ranked 2 in table order. -/
def exCross : List Client :=
  [⟨1, "t", "", "backlog", 2⟩, ⟨2, "u", "", "backlog", 1⟩, ⟨3, "v", "", "in-progress", 1⟩]

/-- Two backlog clients ranked 1 and 2. -/
def exPair : List Client :=
  [⟨1, "t", "", "backlog", 1⟩, ⟨2, "u", "", "backlog", 2⟩]

/-- The (correct) result of moving the first client of exPair to the
complete lane. -/
def exPairRes : List Client :=
  [⟨1, "t", "", "complete", 1⟩, ⟨2, "u", "", "backlog", 1⟩]

/-- C1: the density invariant is not preserved by every update: starting
from the density-satisfying state exB5 (backlog ranked 1..5), moving
client 4 to rank 1 of the same lane produces a state whose backlog ranks
are 2,3,4,1,6 — rank 5 is missing, so density fails. -/
theorem put_breaks_density :
    densityAllB exB5 = true ∧
    okClients (putHandler exB5 (some 4) none (some 1)) = some exB5after ∧
    densityAllB exB5after = false := by
  decide

/-- C2: the same-lane move does not implement the half-open-interval
shift: in the very scenario of the claim (backlog ranked 1..5, move the rank-4
client to rank 1) the rank-5 client, which both intervals exclude, is
pushed to rank 6 instead of staying at rank 5. -/
theorem same_lane_move_mishandles_bottom_item :
    putHandler exB5 (some 4) none (some 1) = [Resp.ok exB5after] ∧
    exB5after.find? (fun c => c.id == 5) = some ⟨5, "e", "", "backlog", 6⟩ := by
  decide

/-- C3: the cross-lane move does not decrement exactly the origin-lane
clients ranked at or above the moved client: in exCross, moving client 1
(backlog rank 2) to in-progress decrements client 2 (backlog rank 1,
which the claim says is untouched) to rank 0, because the loop first
decrements the aliased original client and then compares later rows
against the mutated priority. -/
theorem cross_lane_move_decrements_low_rank_item :
    densityAllB exCross = true ∧
    putHandler exCross (some 1) (some "in-progress") none =
      [Resp.ok [⟨1, "t", "", "in-progress", 2⟩, ⟨2, "u", "", "backlog", 0⟩,
        ⟨3, "v", "", "in-progress", 1⟩]] := by
  decide

/-- C6: validatePriority rejects nothing: its guard
(Number.isNaN(priority) && priority) is unsatisfiable because NaN is
falsy, so zero, the non-integer 1/2, and every other value are reported
valid, against the documented positive-integer rule. -/
theorem validatePriority_never_rejects :
    (validatePriority (JSVal.num 0)).valid = true ∧
    (validatePriority (JSVal.num (1 / 2))).valid = true ∧
    ∀ v, (validatePriority v).valid = true := by
  refine ⟨rfl, rfl, fun v => ?_⟩
  cases v <;> rfl

/-- C7: moving a client from rank 4 to rank 1 of its lane and then back
from rank 1 to rank 4 does not restore the original assignment: from
exB5 the round trip ends with backlog ranks 3,4,4,4,7 instead of
1,2,3,4,5. -/
theorem move_and_reverse_not_restored :
    ((okClients (putHandler exB5 (some 4) none (some 1))).bind
      (fun cs => okClients (putHandler cs (some 4) none (some 4)))) =
      some [⟨1, "a", "", "backlog", 3⟩, ⟨2, "b", "", "backlog", 4⟩, ⟨3, "c", "", "backlog", 4⟩,
        ⟨4, "d", "", "backlog", 4⟩, ⟨5, "e", "", "backlog", 7⟩] ∧
    ([⟨1, "a", "", "backlog", 3⟩, ⟨2, "b", "", "backlog", 4⟩, ⟨3, "c", "", "backlog", 4⟩,
        ⟨4, "d", "", "backlog", 4⟩, ⟨5, "e", "", "backlog", 7⟩] : List Client) ≠ exB5 := by
  decide

/-- C9: the write-back is not atomic: the handler issues one UPDATE per
row with no surrounding transaction, and interrupting after the first
row write of the exPair move leaves a persisted state (client 1 already
moved to complete, client 2 still at backlog rank 2) that violates
density, as the scanl over the row writes shows. -/
theorem row_by_row_write_violates_density_midway :
    densityAllB exPair = true ∧
    okClients (putHandler exPair (some 1) (some "complete") none) = some exPairRes ∧
    densityAllB exPairRes = true ∧
    (List.scanl applyWrite exPair exPairRes).map densityAllB = [true, false, true] := by
  decide

/-- Helper: the numeric branch of validatePriority always reports valid,
since a non-NaN number never satisfies the guard. -/
lemma validatePriority_num_valid (q : ℚ) : (validatePriority (.num q)).valid = true := rfl

/-- Helper: a string accepted by validStatus is nonempty. -/
lemma validStatus_ne_empty {s : String} (h : validStatus s = true) : (s == "") = false := by
  cases hb : (s == "") with
  | false => rfl
  | true =>
    have hs : s = "" := eq_of_beq hb
    subst hs
    exact absurd h (by decide)

/-- C10: when validateId rejects the id, the 400 response is sent without
a return, so the GET-by-id handler goes on to send a 200 carrying the
empty lookup, and the PUT handler goes on into the move computation where
the absent original client makes it throw (modelled as the crash
response). -/
theorem invalid_id_sends_error_and_continues (db : List Client) (rawId : Option Int)
    (reqStatus : Option String) (reqPriority : Option Int)
    (hinv : validateIdValid db rawId = false)
    (hs : reqStatus = none ∨ reqStatus = some "") :
    getClientHandler db rawId = [.badRequest "Invalid id provided.", .getOk none] ∧
    putHandler db rawId reqStatus reqPriority = [.badRequest "Invalid id provided.", .crash] := by
  have hoc : (match rawId with
      | none => (none : Option Client)
      | some i => db.find? (fun c => c.id == i)) = none := by
    cases rawId with
    | none => rfl
    | some i =>
      cases h : db.find? (fun c => c.id == i) with
      | none => simp [h]
      | some c => simp [validateIdValid, h] at hinv
  have hresp : ∀ tid, putResp db none tid reqStatus reqPriority = .crash := by
    intro tid
    rcases hs with h | h <;> subst h <;> rfl
  constructor
  · simp [getClientHandler, hinv, hoc]
  · simp [putHandler, hinv, hoc, hresp]

/-- Closed instance of the invalid-id behaviour: id 1 against an empty
table. -/
theorem invalid_id_sends_error_and_continues_witness :
    getClientHandler [] (some 1) = [.badRequest "Invalid id provided.", .getOk none] ∧
    putHandler [] (some 1) none none = [.badRequest "Invalid id provided.", .crash] :=
  invalid_id_sends_error_and_continues [] (some 1) none none (by decide) (Or.inl rfl)

/-- C4: requesting the current lane of a client and current rank (the rank
possibly absent) is a true no-op: the handler answers 200 with the loaded
list unchanged, before any shifting runs. -/
theorem put_same_lane_same_rank_noop (clients : List Client) (i : Int) (oc : Client)
    (reqStatus : Option String) (reqPriority : Option Int)
    (hfind : clients.find? (fun c => c.id == i) = some oc)
    (hs : reqStatus = none ∨ (reqStatus = some oc.status ∧ validStatus oc.status = true))
    (hp : reqPriority = none ∨ reqPriority = some oc.priority) :
    putHandler clients (some i) reqStatus reqPriority = [Resp.ok clients] := by
  have hpre : validateIdValid clients (some i) = true := by
    simp [validateIdValid, hfind]
  have hstat : resolveStatus reqStatus (some oc) = .ok oc.status := by
    rcases hs with h | ⟨h, hv⟩
    · subst h; rfl
    · subst h
      simp [resolveStatus, validStatus_ne_empty hv, hv]
  have hresp : putResp clients (some oc) i reqStatus reqPriority = .ok clients := by
    simp only [putResp, hstat]
    rcases hp with h | h
    · subst h
      simp [resolvePriority]
    · subst h
      by_cases h0 : oc.priority = 0
      · simp [resolvePriority, h0]
      · simp [resolvePriority, h0, validatePriority_num_valid]
  simp [putHandler, hpre, hfind, hresp]

/-- Closed instance of the no-op: one backlog client, reranked to its own
lane and rank. -/
theorem put_same_lane_same_rank_noop_witness :
    putHandler [⟨1, "a", "", "backlog", 1⟩] (some 1) (some "backlog") (some 1) =
      [Resp.ok [⟨1, "a", "", "backlog", 1⟩]] :=
  put_same_lane_same_rank_noop _ 1 ⟨1, "a", "", "backlog", 1⟩ _ _ (by decide)
    (Or.inr ⟨rfl, by decide⟩) (Or.inr rfl)

/-- Helper: after applyMove with a priority above maxPriority, every row
carrying the target id holds the clamped priority maxPriority. -/
lemma applyMove_target_rank (tid : Int) (status : String) (priority maxPriority : Int)
    (oc : Client) (shifted : List Client) (hcl : maxPriority < priority) :
    ∀ c ∈ applyMove tid status priority maxPriority oc shifted, c.id = tid →
      c.priority = maxPriority := by
  intro c hc hcid
  simp only [applyMove, List.mem_map] at hc
  obtain ⟨b, _, rfl⟩ := hc
  by_cases hbi : (b.id == tid) = true
  · simp only [hbi, if_true]
    exact if_pos hcl
  · rw [if_neg (by simpa using hbi)] at hcid ⊢
    exact absurd (beq_iff_eq.mpr hcid) hbi

/-- C5: a requested rank beyond the range of the destination lane is clamped,
not rejected: whenever the requested priority p exceeds maxPriority (the
current size of the destination lane plus one), the handler still answers 200
with a reranked list in which every row holding the target id carries
priority maxPriority, matching the scenario of rank 99 against a 3-item
lane landing at rank 4. -/
theorem put_clamps_excessive_rank (clients : List Client) (i : Int) (oc : Client)
    (s : String) (p : Int)
    (hfind : clients.find? (fun c => c.id == i) = some oc)
    (hs : validStatus s = true)
    (hp : ((clients.filter (fun c => c.status == s)).length : Int) + 1 < p)
    (hne : oc.priority ≠ p) :
    ∃ cs, okClients (putHandler clients (some i) (some s) (some p)) = some cs ∧
      ∀ c ∈ cs, c.id = i →
        c.priority = ((clients.filter (fun c => c.status == s)).length : Int) + 1 := by
  have hpre : validateIdValid clients (some i) = true := by
    simp [validateIdValid, hfind]
  have hstat : resolveStatus (some s) (some oc) = .ok s := by
    simp [resolveStatus, validStatus_ne_empty hs, hs]
  have hpz : p ≠ 0 := by omega
  have hprio : ∀ maxP, resolvePriority (some p) (some oc) s clients maxP = .ok p := by
    intro maxP
    simp [resolvePriority, hpz]
  have hmain : putHandler clients (some i) (some s) (some p) =
      [Resp.ok (if (oc.status == s) = true then
        applyMove i s p (((clients.filter (fun c => c.status == s)).length : Int) + 1) oc
          (sameLaneLoop s p i oc.priority clients)
      else
        applyMove i s p (((clients.filter (fun c => c.status == s)).length : Int) + 1) oc
          (crossLaneLoop oc.status s p i oc.priority clients))] := by
    by_cases hsame : (oc.status == s) = true
    · have hpr : (oc.priority == p) = false := by
        simp [hne]
      simp [putHandler, hpre, hfind, putResp, hstat, hprio, validatePriority_num_valid,
        hsame, hpr]
    · simp [putHandler, hpre, hfind, putResp, hstat, hprio, validatePriority_num_valid,
        hsame]
  refine ⟨_, by rw [hmain]; rfl, ?_⟩
  by_cases hsame : (oc.status == s) = true
  · rw [if_pos hsame]
    exact applyMove_target_rank i s p _ oc _ hp
  · rw [if_neg hsame]
    exact applyMove_target_rank i s p _ oc _ hp

/-- Closed instance of the clamp: rank 99 requested in an in-progress
lane holding three clients; every row with the target id ends at rank 4. -/
theorem put_clamps_excessive_rank_witness :
    ∃ cs, okClients (putHandler
        [⟨1, "t", "", "backlog", 1⟩, ⟨2, "u", "", "in-progress", 1⟩,
         ⟨3, "v", "", "in-progress", 2⟩, ⟨4, "w", "", "in-progress", 3⟩]
        (some 1) (some "in-progress") (some 99)) = some cs ∧
      ∀ c ∈ cs, c.id = 1 →
        c.priority = ((([⟨1, "t", "", "backlog", 1⟩, ⟨2, "u", "", "in-progress", 1⟩,
          ⟨3, "v", "", "in-progress", 2⟩, ⟨4, "w", "", "in-progress", 3⟩] : List Client).filter
            (fun c => c.status == "in-progress")).length : Int) + 1 :=
  put_clamps_excessive_rank _ 1 ⟨1, "t", "", "backlog", 1⟩ "in-progress" 99
    (by decide) (by decide) (by decide) (by decide)

/-- Per-row frame relation between an input row a and the corresponding
output row b of a shifting loop over the lanes orig and dest: the id,
name, description and status fields are preserved (the loops only write
the priority field), and a row belonging to neither lane is untouched. -/
def FrameRel (orig dest : String) (a b : Client) : Prop :=
  b.id = a.id ∧ b.name = a.name ∧ b.description = a.description ∧
  b.status = a.status ∧ (a.status ≠ orig → a.status ≠ dest → b = a)

/-- The same-lane loop relates input and output rows by FrameRel. -/
lemma sameLaneLoop_frame (lane : String) (priority tid : Int) :
    ∀ (cs : List Client) (op : Int),
      List.Forall₂ (FrameRel lane lane) cs (sameLaneLoop lane priority tid op cs) := by
  intro cs
  induction cs with
  | nil => intro op; exact List.Forall₂.nil
  | cons c rest ih =>
    intro op
    simp only [sameLaneLoop]
    by_cases h1 : (c.status == lane) = true
    · rw [if_pos h1]
      have hcl : c.status = lane := eq_of_beq h1
      by_cases h2 : (if priority ≤ c.priority then (1 : Int) else 0) < op
      · rw [if_pos h2]
        exact List.Forall₂.cons ⟨rfl, rfl, rfl, rfl, fun hno _ => absurd hcl hno⟩ (ih _)
      · rw [if_neg h2]
        by_cases h3 : (if priority ≥ c.priority then (1 : Int) else 0) > op
        · rw [if_pos h3]
          exact List.Forall₂.cons ⟨rfl, rfl, rfl, rfl, fun hno _ => absurd hcl hno⟩ (ih _)
        · rw [if_neg h3]
          exact List.Forall₂.cons ⟨rfl, rfl, rfl, rfl, fun _ _ => rfl⟩ (ih _)
    · rw [if_neg h1]
      exact List.Forall₂.cons ⟨rfl, rfl, rfl, rfl, fun _ _ => rfl⟩ (ih _)

/-- The cross-lane loop relates input and output rows by FrameRel. -/
lemma crossLaneLoop_frame (orig dest : String) (priority tid : Int) :
    ∀ (cs : List Client) (op : Int),
      List.Forall₂ (FrameRel orig dest) cs (crossLaneLoop orig dest priority tid op cs) := by
  intro cs
  induction cs with
  | nil => intro op; exact List.Forall₂.nil
  | cons c rest ih =>
    intro op
    simp only [crossLaneLoop]
    by_cases h1 : (c.status == orig) = true
    · rw [if_pos h1]
      have hcl : c.status = orig := eq_of_beq h1
      by_cases h2 : c.priority ≥ op
      · rw [if_pos h2]
        exact List.Forall₂.cons ⟨rfl, rfl, rfl, rfl, fun hno _ => absurd hcl hno⟩ (ih _)
      · rw [if_neg h2]
        exact List.Forall₂.cons ⟨rfl, rfl, rfl, rfl, fun _ _ => rfl⟩ (ih _)
    · rw [if_neg h1]
      by_cases h2 : (c.status == dest) = true
      · rw [if_pos h2]
        have hcl : c.status = dest := eq_of_beq h2
        by_cases h3 : c.priority ≥ priority
        · rw [if_pos h3]
          exact List.Forall₂.cons ⟨rfl, rfl, rfl, rfl, fun _ hno => absurd hcl hno⟩ (ih _)
        · rw [if_neg h3]
          exact List.Forall₂.cons ⟨rfl, rfl, rfl, rfl, fun _ _ => rfl⟩ (ih _)
      · rw [if_neg h2]
        exact List.Forall₂.cons ⟨rfl, rfl, rfl, rfl, fun _ _ => rfl⟩ (ih _)

/-- With table-unique ids, the row find? returns is the only row carrying
the target id. -/
lemma find_id_unique (i : Int) : ∀ (clients : List Client) (oc : Client),
    (clients.map (fun c => c.id)).Nodup →
    clients.find? (fun c => c.id == i) = some oc →
    ∀ a ∈ clients, a.id = i → a = oc := by
  intro clients
  induction clients with
  | nil => intro oc _ hfind; simp at hfind
  | cons c rest ih =>
    intro oc hnd hfind a ha hai
    by_cases hc : (c.id == i) = true
    · simp only [List.find?, hc] at hfind
      injection hfind with h
      subst h
      rcases List.mem_cons.mp ha with rfl | hmem
      · rfl
      · exfalso
        have hmm : a.id ∈ rest.map (fun c => c.id) := List.mem_map_of_mem _ hmem
        rw [hai, ← eq_of_beq hc] at hmm
        exact (List.nodup_cons.mp hnd).1 hmm
    · have hcf : (c.id == i) = false := by simpa using hc
      simp only [List.find?, hcf] at hfind
      rcases List.mem_cons.mp ha with rfl | hmem
      · exact absurd (beq_iff_eq.mpr hai) hc
      · exact ih oc (List.nodup_cons.mp hnd).2 hfind a hmem hai

/-- Composition of two Forall₂ relations, with membership of the first
list available. -/
lemma forall2_comp_mem {R S T : Client → Client → Prop} :
    ∀ {l1 l2 l3 : List Client}, List.Forall₂ R l1 l2 → List.Forall₂ S l2 l3 →
      (∀ a b c, a ∈ l1 → R a b → S b c → T a c) → List.Forall₂ T l1 l3 := by
  intro l1 l2 l3 h1
  induction h1 generalizing l3 with
  | nil =>
    intro h2 _
    cases h2
    exact List.Forall₂.nil
  | cons hr hrest ih =>
    intro h2 himp
    cases h2 with
    | cons hs hrest2 =>
      exact List.Forall₂.cons (himp _ _ _ (List.mem_cons_self _ _) hr hs)
        (ih hrest2 (fun a b c ha => himp a b c (List.mem_cons_of_mem _ ha)))

/-- applyMove relates each shifted row to either itself or, on the target
id, the rebuilt updated client. -/
lemma applyMove_forall2 (tid : Int) (status : String) (priority maxPriority : Int)
    (oc : Client) (shifted : List Client) :
    List.Forall₂ (fun b c => c = if b.id == tid then
        ({ id := oc.id, name := oc.name, description := oc.description, status := status,
           priority := if priority > maxPriority then maxPriority else priority } : Client)
      else b)
      shifted (applyMove tid status priority maxPriority oc shifted) := by
  induction shifted with
  | nil => exact List.Forall₂.nil
  | cons c rest ih => exact List.Forall₂.cons rfl ih

/-- A Forall₂ whose relation is reflexive holds on the diagonal. -/
lemma forall2_refl_of {R : Client → Client → Prop} (h : ∀ a, R a a) :
    ∀ l, List.Forall₂ R l l := by
  intro l
  induction l with
  | nil => exact List.Forall₂.nil
  | cons c rest ih => exact List.Forall₂.cons (h c) ih

/-- Pointwise-equal images under g give equal mapped lists. -/
lemma forall2_map_eq {g : Client → Int × String × String} :
    ∀ {l1 l2 : List Client}, List.Forall₂ (fun a b => g b = g a) l1 l2 →
      l2.map g = l1.map g := by
  intro l1 l2 h
  induction h with
  | nil => rfl
  | cons hr _ ih => simp [ih, hr]

/-- A singleton response list yields okClients only for an ok response. -/
lemma okClients_singleton {r : Resp} {cs : List Client}
    (h : okClients [r] = some cs) : r = .ok cs := by
  cases r with
  | ok l =>
    simp only [okClients, Option.some.injEq] at h
    rw [h]
  | getOk o => simp [okClients] at h
  | badRequest m => simp [okClients] at h
  | crash => simp [okClients] at h

/-- Shape of a successful PUT body: either the unchanged list (no-op
early return) or applyMove applied to a shifted list that FrameRel
relates to the input, with the destination lane as resolved. -/
lemma putResp_ok_shape (clients : List Client) (oc : Client) (tid : Int)
    (reqStatus : Option String) (reqPriority : Option Int) (cs : List Client)
    (h : putResp clients (some oc) tid reqStatus reqPriority = .ok cs) :
    cs = clients ∨
    ∃ priority maxPriority shifted,
      List.Forall₂ (FrameRel oc.status (destLaneOf reqStatus oc)) clients shifted ∧
      cs = applyMove tid (destLaneOf reqStatus oc) priority maxPriority oc shifted := by
  have hres : resolveStatus reqStatus (some oc) = .ok (destLaneOf reqStatus oc) ∨
      ∃ m, resolveStatus reqStatus (some oc) = .error (.badRequest m) := by
    cases reqStatus with
    | none => exact Or.inl rfl
    | some s =>
      by_cases h0 : (s == "") = true
      · left; simp [resolveStatus, destLaneOf, h0]
      · by_cases hv : validStatus s = true
        · left; simp [resolveStatus, destLaneOf, h0, hv]
        · right
          exact ⟨"Invalid status provided.", by simp [resolveStatus, h0, hv]⟩
  rcases hres with hok | ⟨m, herr⟩
  · simp only [putResp, hok] at h
    cases hp : resolvePriority reqPriority (some oc) (destLaneOf reqStatus oc) clients
        (((clients.filter (fun c => c.status == destLaneOf reqStatus oc)).length : Int) + 1) with
    | error r =>
      rw [hp] at h
      have hr : r = .ok clients := by
        cases reqPriority with
        | some p =>
          simp only [resolvePriority] at hp
          by_cases hz : (p == 0) = true
          · rw [if_pos hz] at hp
            by_cases hss : (oc.status == destLaneOf reqStatus oc) = true
            · rw [if_pos hss] at hp
              injection hp with hp2
              exact hp2.symm
            · rw [if_neg hss] at hp
              simp at hp
          · rw [if_neg hz] at hp
            simp at hp
        | none =>
          simp only [resolvePriority] at hp
          by_cases hss : (oc.status == destLaneOf reqStatus oc) = true
          · rw [if_pos hss] at hp
            injection hp with hp2
            exact hp2.symm
          · rw [if_neg hss] at hp
            simp at hp
      subst hr
      simp only at h
      injection h with h2
      exact Or.inl h2.symm
    | ok priority =>
      rw [hp] at h
      simp only [validatePriority_num_valid] at h
      by_cases hsame : (oc.status == destLaneOf reqStatus oc) = true
      · rw [if_pos hsame] at h
        by_cases heq : (oc.priority == priority) = true
        · rw [if_pos heq] at h
          injection h with h2
          exact Or.inl h2.symm
        · rw [if_neg heq] at h
          injection h with h2
          right
          refine ⟨priority, _, _, ?_, h2.symm⟩
          have hcl : oc.status = destLaneOf reqStatus oc := eq_of_beq hsame
          rw [hcl]
          exact sameLaneLoop_frame _ priority tid clients oc.priority
      · rw [if_neg hsame] at h
        injection h with h2
        right
        refine ⟨priority, _, _, ?_, h2.symm⟩
        exact crossLaneLoop_frame oc.status _ priority tid clients oc.priority
  · simp only [putResp, herr] at h
    simp at h

/-- C8: a successful update only moves ranks around: the returned list
has the same length as the input (no row created or deleted, grand total
invariant), position by position the same id, name and description, every
non-target row keeps its lane, and every row belonging to neither the
origin lane nor the resolved destination lane is completely unchanged. -/
theorem put_frame_preservation (clients : List Client) (i : Int) (oc : Client)
    (reqStatus : Option String) (reqPriority : Option Int) (cs : List Client)
    (hnd : (clients.map (fun c => c.id)).Nodup)
    (hfind : clients.find? (fun c => c.id == i) = some oc)
    (hok : okClients (putHandler clients (some i) reqStatus reqPriority) = some cs) :
    cs.length = clients.length ∧
    cs.map (fun c => (c.id, c.name, c.description)) =
      clients.map (fun c => (c.id, c.name, c.description)) ∧
    List.Forall₂ (fun a b => (a.id ≠ i → b.status = a.status) ∧
      (a.status ≠ oc.status → a.status ≠ destLaneOf reqStatus oc → b = a)) clients cs := by
  have hpre : validateIdValid clients (some i) = true := by
    simp [validateIdValid, hfind]
  have hput : putHandler clients (some i) reqStatus reqPriority =
      [putResp clients (some oc) i reqStatus reqPriority] := by
    simp [putHandler, hpre, hfind]
  rw [hput] at hok
  have hresp := okClients_singleton hok
  rcases putResp_ok_shape clients oc i reqStatus reqPriority cs hresp with rfl | hshape
  · refine ⟨rfl, rfl, ?_⟩
    exact forall2_refl_of (fun a => ⟨fun _ => rfl, fun _ _ => rfl⟩) cs
  · obtain ⟨p, maxP, shifted, hf2, rfl⟩ := hshape
    have hmap := applyMove_forall2 i (destLaneOf reqStatus oc) p maxP oc shifted
    have hcomp : List.Forall₂ (fun a b =>
        ((b.id, b.name, b.description) = (a.id, a.name, a.description)) ∧
        (a.id ≠ i → b.status = a.status) ∧
        (a.status ≠ oc.status → a.status ≠ destLaneOf reqStatus oc → b = a)) clients
        (applyMove i (destLaneOf reqStatus oc) p maxP oc shifted) := by
      refine forall2_comp_mem hf2 hmap ?_
      rintro a b c ha ⟨hid, hname, hdesc, hstatus, huntouched⟩ hc
      by_cases hbi : (b.id == i) = true
      · have haid : a.id = i := by rw [← hid]; exact eq_of_beq hbi
        have haoc : a = oc := find_id_unique i clients oc hnd hfind a ha haid
        rw [if_pos hbi] at hc
        subst hc
        refine ⟨by rw [haoc], fun hna => absurd haid hna, fun hns _ => ?_⟩
        exact absurd (by rw [haoc]) hns
      · rw [if_neg hbi] at hc
        subst hc
        exact ⟨by rw [hid, hname, hdesc], fun _ => hstatus, huntouched⟩
    refine ⟨(hcomp.length_eq).symm, ?_, ?_⟩
    · exact forall2_map_eq (hcomp.imp (fun a b h => h.1))
    · exact hcomp.imp (fun a b h => h.2)

/-- Closed instance of the frame property: moving client 1 from backlog
to complete leaves the in-progress row of client 2 untouched and preserves the
identity fields and the count. -/
theorem put_frame_preservation_witness :
    ([⟨1, "a", "", "complete", 1⟩, ⟨2, "b", "", "in-progress", 1⟩] : List Client).length =
      ([⟨1, "a", "", "backlog", 1⟩, ⟨2, "b", "", "in-progress", 1⟩] : List Client).length ∧
    ([⟨1, "a", "", "complete", 1⟩, ⟨2, "b", "", "in-progress", 1⟩] : List Client).map
        (fun c => (c.id, c.name, c.description)) =
      ([⟨1, "a", "", "backlog", 1⟩, ⟨2, "b", "", "in-progress", 1⟩] : List Client).map
        (fun c => (c.id, c.name, c.description)) ∧
    List.Forall₂ (fun (a b : Client) => (a.id ≠ 1 → b.status = a.status) ∧
        (a.status ≠ (⟨1, "a", "", "backlog", 1⟩ : Client).status →
          a.status ≠ destLaneOf (some "complete") ⟨1, "a", "", "backlog", 1⟩ → b = a))
      [⟨1, "a", "", "backlog", 1⟩, ⟨2, "b", "", "in-progress", 1⟩]
      [⟨1, "a", "", "complete", 1⟩, ⟨2, "b", "", "in-progress", 1⟩] :=
  put_frame_preservation [⟨1, "a", "", "backlog", 1⟩, ⟨2, "b", "", "in-progress", 1⟩] 1
    ⟨1, "a", "", "backlog", 1⟩ (some "complete") none
    [⟨1, "a", "", "complete", 1⟩, ⟨2, "b", "", "in-progress", 1⟩]
    (by decide) (by decide) (by decide)
